import Mathlib

/-!
Shallow embedding of the SnakeZ simulation engine
(`src/game_backend/src/{base,snake,player,grid,events,game}.rs`) and
verification of the specification's claims about it.

Machine integers (`i32`) are modelled as `Int`; Rust's `/` on `i32`
truncates toward zero, which is `Int.tdiv`.  `usize` indices are `Nat`.
Rust `Vec` is `List`.  Fallible operations (Rust panics on violated
preconditions) are modelled with `Option`.
-/

namespace SnakeZ

/-- `base.rs`: integer 2D vector. -/
structure Vector2i where
  x : Int
  y : Int
deriving DecidableEq, Repr

/-- `base.rs`: the four cardinal directions. -/
inductive Direction where
  | PlusX
  | MinusX
  | PlusY
  | MinusY
deriving DecidableEq, Repr

def Vector2i.zero : Vector2i := ⟨0, 0⟩

instance : Inhabited Vector2i := ⟨Vector2i.zero⟩

/-- `base.rs` `impl Add for Vector2i`. -/
def Vector2i.add (a b : Vector2i) : Vector2i := ⟨a.x + b.x, a.y + b.y⟩

/-- `base.rs` `impl Sub for Vector2i`. -/
def Vector2i.sub (a b : Vector2i) : Vector2i := ⟨a.x - b.x, a.y - b.y⟩

/-- `base.rs` `impl Neg for Vector2i`. -/
def Vector2i.neg (a : Vector2i) : Vector2i := ⟨-a.x, -a.y⟩

/-- `base.rs` `impl Mul<i32> for Vector2i`. -/
def Vector2i.mul (a : Vector2i) (k : Int) : Vector2i := ⟨a.x * k, a.y * k⟩

/-- `base.rs` `Vector2i::from_direction`. -/
def Vector2i.fromDirection : Direction → Vector2i
  | Direction.PlusX => ⟨1, 0⟩
  | Direction.MinusX => ⟨-1, 0⟩
  | Direction.PlusY => ⟨0, 1⟩
  | Direction.MinusY => ⟨0, -1⟩

/-- `snake.rs`: a snake's facing, body (head first) and pending growth.
`grow_counter` is an `i32` in the source, hence `Int`. -/
structure Snake where
  lookDirection : Direction
  body : List Vector2i
  growCounter : Int
deriving DecidableEq, Repr

/-- `snake.rs` `Snake::backward_direction`: `body[1] - body[0]`.
The source asserts the result has Manhattan length 1 (contiguous body);
theorems that rely on this carry it as a hypothesis.  Out-of-range
indices (impossible under the length ≥ 2 invariant) default to zero. -/
def Snake.backwardDirection (s : Snake) : Vector2i :=
  (s.body.getD 1 Vector2i.zero).sub (s.body.getD 0 Vector2i.zero)

/-- `snake.rs` `Snake::try_set_look_direction`: refuses the direction
equal to the backward direction, otherwise updates the facing; returns
the updated snake and whether the resulting facing equals the request. -/
def Snake.trySetLookDirection (s : Snake) (direction : Direction) : Snake × Bool :=
  let backwardDir := s.backwardDirection
  let newDir := Vector2i.fromDirection direction
  let s1 := if backwardDir ≠ newDir then { s with lookDirection := direction } else s
  (s1, direction == s1.lookDirection)

/-- `snake.rs` `Snake::new`: lays `length` cells behind the head along the
reverse of `direction`.  The source panics when `length < 2`; here that is
`none`. -/
def Snake.new (position : Vector2i) (direction : Direction) (length : Nat) : Option Snake :=
  if length < 2 then none
  else
    let dirVec := Vector2i.fromDirection direction
    some { lookDirection := direction,
           body := (List.range length).map (fun i => position.sub (dirVec.mul (i : Int))),
           growCounter := 0 }

/-- `snake.rs` `Snake::eat`: adds to the grow counter. -/
def Snake.eat (s : Snake) (food : Int) : Snake :=
  { s with growCounter := s.growCounter + food }

/-- `snake.rs` `Snake::move_forward`: prepends the new head
`body[0] + unit(look_direction)`; a positive grow counter is decremented
and the tail kept, otherwise the last cell is popped.  The source indexes
`body[0]` (panics on an empty body, impossible under the invariant);
here the head of an empty body defaults to zero. -/
def Snake.moveForward (s : Snake) : Snake :=
  let moveDir := Vector2i.fromDirection s.lookDirection
  let newHead := (s.body.headD Vector2i.zero).add moveDir
  let body1 := newHead :: s.body
  if s.growCounter > 0 then
    { s with body := body1, growCounter := s.growCounter - 1 }
  else
    { s with body := body1.dropLast }

/-- `game.rs` `struct Player`: optional snake (dead = `None`) and score.
The inbound control channel is external I/O; its drained messages are
passed explicitly to `readInputs` instead. -/
structure Player where
  snake : Option Snake
  score : Nat
deriving DecidableEq, Repr

instance : Inhabited Player := ⟨⟨none, 0⟩⟩

/-- `game.rs` `Player::alive`. -/
def Player.alive (p : Player) : Bool := p.snake.isSome

/-- `game.rs` `Player::kill`. -/
def Player.kill (p : Player) : Player := { p with snake := none }

/-- One iteration of the input-drain loop in `game.rs`
`Player::read_inputs`: an alive player's snake gets the direction through
`try_set_look_direction`; a dead player discards it. -/
def Player.readOneInput (p : Player) (input : Direction) : Player :=
  if p.alive then { p with snake := p.snake.map (fun s => (s.trySetLookDirection input).1) }
  else p

/-- `game.rs` `Player::read_inputs`: applies each drained direction in
order. -/
def Player.readInputs (p : Player) (inputs : List Direction) : Player :=
  inputs.foldl Player.readOneInput p

/-- `game.rs` `enum ActionStep`. -/
inductive ActionStep where
  | Hold
  | Move
  | Die
deriving DecidableEq, Repr

/-- `game.rs` `struct Game`: roster, field size and food pool.  The cached
grid is derived state, recomputed by `generateGrid`. -/
structure Game where
  players : List Player
  fieldSize : Vector2i
  pizzas : List Vector2i
deriving DecidableEq, Repr

/-- `game.rs` `const INITIAL_LENGTH`. -/
def INITIAL_LENGTH : Nat := 2

/-- `game.rs` `Game::new`. -/
def Game.new (fieldSize : Vector2i) : Game :=
  { players := [], fieldSize := fieldSize, pizzas := [] }

/-- `game.rs` `Game::calc_spawn_pos`: deterministic spawn point and
direction for a roster slot.  The source asserts `index < 4` (panics
otherwise); here slot ≥ 4 is `none`.  Rust `i32` division truncates
toward zero, which is `Int.tdiv`. -/
def Game.calcSpawnPos (index : Nat) (length : Nat) (fieldSize : Vector2i) : Option (Vector2i × Direction) :=
  let center : Vector2i := ⟨Int.tdiv fieldSize.x 2, Int.tdiv fieldSize.y 2⟩
  match index with
  | 0 => some (⟨center.x - (length : Int), center.y⟩, Direction.MinusX)
  | 1 => some (⟨center.x, center.y - (length : Int)⟩, Direction.MinusY)
  | 2 => some (⟨center.x + (length : Int), center.y⟩, Direction.PlusX)
  | 3 => some (⟨center.x, center.y + (length : Int)⟩, Direction.PlusY)
  | _ => none

/-- `game.rs` `Game::register_player`: appends a player whose snake is
spawned at the slot equal to the previous roster length.  Fails (source:
panics inside `calc_spawn_pos`) when that slot is ≥ 4. -/
def Game.registerPlayer (g : Game) : Option (Game × Nat) :=
  let newPlayerIndex := g.players.length
  match Game.calcSpawnPos newPlayerIndex INITIAL_LENGTH g.fieldSize with
  | none => none
  | some (spawnPos, spawnDir) =>
    match Snake.new spawnPos spawnDir INITIAL_LENGTH with
    | none => none
    | some sn => some ({ g with players := g.players ++ [{ snake := some sn, score := 0 }] }, newPlayerIndex)

/-- `game.rs` `Game::move_player`: advances the snake of player `i`; if
the new head sits on a pizza the snake eats 1, the score is incremented
and that (first-matching) pizza removed.  The source unwraps the snake
(panics on a dead player); a dead or out-of-range player leaves the game
unchanged here. -/
def Game.movePlayer (g : Game) (i : Nat) : Game :=
  match (g.players.getD i default).snake with
  | none => g
  | some sn =>
    let sn1 := sn.moveForward
    let headPos := sn1.body.headD Vector2i.zero
    match g.pizzas.findIdx? (fun p => p == headPos) with
    | some pizzaIndex =>
      { g with
          players := g.players.set i
            { snake := some (sn1.eat 1), score := (g.players.getD i default).score + 1 },
          pizzas := g.pizzas.eraseIdx pizzaIndex }
    | none =>
      { g with
          players := g.players.set i
            { snake := some sn1, score := (g.players.getD i default).score } }

/-- The candidate head of a snake: `body[0] + unit(look_direction)`,
as computed inline in `Game::predict_next_action`. -/
def Snake.candidateHead (s : Snake) : Vector2i :=
  (s.body.headD Vector2i.zero).add (Vector2i.fromDirection s.lookDirection)

/-- `game.rs` `Game::predict_next_action`, bounds test: the candidate
head falls outside `[0,width) x [0,height)`. -/
def Game.outOfField (g : Game) (pos : Vector2i) : Bool :=
  decide (pos.x < 0) || decide (pos.x ≥ g.fieldSize.x) ||
  decide (pos.y < 0) || decide (pos.y ≥ g.fieldSize.y)

/-- `game.rs` `Game::predict_next_action`, body-collision test: the
position is occupied by a body cell other than the last (tail) cell of
some alive snake (the acting snake included). -/
def Game.hitsNonTailBody (g : Game) (pos : Vector2i) : Bool :=
  g.players.any (fun p =>
    match p.snake with
    | none => false
    | some anySnake => anySnake.body.dropLast.any (fun bodyPart => bodyPart == pos))

/-- `game.rs` `Game::predict_next_action`, head-competition test: some
other alive player's candidate head equals this position. -/
def Game.competesForHead (g : Game) (playerIndex : Nat) (pos : Vector2i) : Bool :=
  (List.range g.players.length).any (fun j =>
    if j = playerIndex then false
    else
      match (g.players.getD j default).snake with
      | none => false
      | some otherSnake => otherSnake.candidateHead == pos)

/-- `game.rs` `Game::predict_next_action`: dead players hold; moving out
of the field or into a non-tail body cell dies; a contested candidate
head holds; otherwise the snake moves. -/
def Game.predictNextAction (g : Game) (playerIndex : Nat) : ActionStep :=
  match (g.players.getD playerIndex default).snake with
  | none => ActionStep.Hold
  | some playerSnake =>
    let newHead := playerSnake.candidateHead
    if g.outOfField newHead then ActionStep.Die
    else if g.hitsNonTailBody newHead then ActionStep.Die
    else if g.competesForHead playerIndex newHead then ActionStep.Hold
    else ActionStep.Move

/-- Application of one predicted action to one player, as in the apply
phase of `game.rs` `Game::step`. -/
def Game.applyAction (g : Game) (action : ActionStep) (i : Nat) : Game :=
  match action with
  | ActionStep.Hold => g
  | ActionStep.Move => g.movePlayer i
  | ActionStep.Die => { g with players := g.players.set i (g.players.getD i default).kill }

/-- `game.rs` `Game::step`: predicts an action for every player from the
pre-step state, then applies the predicted actions in roster order. -/
def Game.step (g : Game) : Game :=
  let actions := (List.range g.players.length).map (fun i => g.predictNextAction i)
  (List.range g.players.length).foldl
    (fun g1 i => g1.applyAction (actions.getD i ActionStep.Hold) i) g

/-- The input-drain phase of `game_loop`: player `i` reads its drained
message list `inputs[i]` (the messages of each player's own channel,
index-aligned with the roster). -/
def Game.readAllInputs (g : Game) (inputs : List (List Direction)) : Game :=
  { g with players := g.players.mapIdx (fun i p => p.readInputs (inputs.getD i [])) }

/-- The game states reachable through the engine's own operations: a
fresh `Game::new`, followed by any sequence of `register_player` calls,
input drains and `step`s (the operations `game_loop` performs). -/
inductive Reachable : Game → Prop where
  | new (fieldSize : Vector2i) : Reachable (Game.new fieldSize)
  | register {g g1 : Game} {k : Nat} :
      Reachable g → g.registerPlayer = some (g1, k) → Reachable g1
  | inputs {g : Game} (ds : List (List Direction)) :
      Reachable g → Reachable (g.readAllInputs ds)
  | tick {g : Game} : Reachable g → Reachable g.step

/-! ### Grid snapshot and broadcast events (`grid.rs`, `events.rs`) -/

/-- `grid.rs` `enum SnakeBodyPart`. -/
inductive SnakeBodyPart where
  | Head
  | Body
  | Tail
deriving DecidableEq, Repr

/-- `grid.rs` `struct SnakeRec`. -/
structure SnakeRec where
  playerIndex : Nat
  bodyPart : SnakeBodyPart
deriving DecidableEq, Repr

/-- `grid.rs` `enum GridCell`.  `PizzaRec` is a fieldless struct, folded
into the `Pizza` constructor. -/
inductive GridCell where
  | Empty
  | Snake (rec : SnakeRec)
  | Pizza
deriving DecidableEq, Repr

/-- `grid.rs` `type Grid = ndarray::Array2<GridCell>`: an `x`-major
2D array, modelled as a list of columns. -/
abbrev Grid := List (List GridCell)

/-- `ndarray` `Array2::from_elem((w,h), c)`. -/
def gridFromElem (w h : Nat) (c : GridCell) : Grid :=
  List.replicate w (List.replicate h c)

/-- One `grid[[x,y]] = c` store. -/
def gridSet (grid : Grid) (x y : Nat) (c : GridCell) : Grid :=
  grid.set x ((grid.getD x []).set y c)

/-- `game.rs` `Game::generate_grid`: an Empty-filled field, pizzas
stamped first, then each alive snake's body parts (index 0 is `Head`,
the last index `Tail`, anything else `Body`), later stores overwriting
earlier ones.  In-field coordinates are non-negative, so the `usize`
casts are `Int.toNat`. -/
def Game.generateGrid (g : Game) : Grid :=
  let grid := gridFromElem g.fieldSize.x.toNat g.fieldSize.y.toNat GridCell.Empty
  let grid := g.pizzas.foldl (fun gr p => gridSet gr p.x.toNat p.y.toNat GridCell.Pizza) grid
  (List.range g.players.length).foldl
    (fun gr playerIdx =>
      match (g.players.getD playerIdx default).snake with
      | none => gr
      | some sn =>
        let snakeLen := sn.body.length
        (List.range snakeLen).foldl
          (fun gr2 partIdx =>
            let cell :=
              if partIdx = 0 then GridCell.Snake ⟨playerIdx, SnakeBodyPart.Head⟩
              else if partIdx = snakeLen - 1 then GridCell.Snake ⟨playerIdx, SnakeBodyPart.Tail⟩
              else GridCell.Snake ⟨playerIdx, SnakeBodyPart.Body⟩
            let bp := sn.body.getD partIdx Vector2i.zero
            gridSet gr2 bp.x.toNat bp.y.toNat cell)
          gr)
    grid

/-- `events.rs` `struct PlayerSummary`. -/
structure PlayerSummary where
  score : Nat
  alive : Bool
deriving DecidableEq, Repr

/-- `player.rs` `Player::summary`. -/
def Player.summary (p : Player) : PlayerSummary := ⟨p.score, p.alive⟩

/-- `events.rs` `enum GlobalEvent` with its `Update` and `GameOver`
payloads. -/
inductive GlobalEvent where
  | Update (grid : Grid) (playersSummary : List PlayerSummary)
  | GameOver (playersSummary : List PlayerSummary)
deriving DecidableEq, Repr

instance : Inhabited GlobalEvent := ⟨GlobalEvent.GameOver []⟩

def GlobalEvent.isUpdate : GlobalEvent → Bool
  | GlobalEvent.Update _ _ => true
  | GlobalEvent.GameOver _ => false

def GlobalEvent.isGameOver : GlobalEvent → Bool
  | GlobalEvent.Update _ _ => false
  | GlobalEvent.GameOver _ => true

/-- The per-player summaries, in roster order. -/
def Game.playerSummaries (g : Game) : List PlayerSummary :=
  g.players.map Player.summary

/-- The `game_loop` termination test: no player is alive. -/
def Game.allDead (g : Game) : Bool :=
  !(g.players.any (fun p => p.alive))

/-- The externally-determined data of one `game_loop` iteration: whether
the shutdown channel holds a message, the messages drained from each
player's control channel, and whether the elapsed time exceeded
`UPDATE_INTERVAL`. -/
structure LoopIter where
  shutdown : Bool
  inputs : List (List Direction)
  tick : Bool

/-- Modelled from the spec: the sequence of events published on the
broadcast channel by `game_loop`.  The event-publishing code
(`register_global_event_channel` and the sends inside the loop, which
`snakez_cmd_client` and `game_cmd_front` call) is absent from the
included `game.rs`; per the spec, one `Update` (grid snapshot plus
ordered per-player summaries) follows each completed step, and a single
`GameOver` is emitted when all players are dead, terminating the loop
with no further events.  The loop structure (order of the all-dead
check, shutdown check, input drain and timed step) follows
`Game::game_loop`. -/
def Game.gameLoopEvents : Game → List LoopIter → List GlobalEvent
  | _, [] => []
  | g, it :: rest =>
    if g.allDead then [GlobalEvent.GameOver g.playerSummaries]
    else if it.shutdown then []
    else
      let g1 := g.readAllInputs it.inputs
      if it.tick then
        let g2 := g1.step
        GlobalEvent.Update g2.generateGrid g2.playerSummaries :: g2.gameLoopEvents rest
      else g1.gameLoopEvents rest

/-- The number of steps `game_loop` completes over the same iteration
data as `gameLoopEvents`. -/
def Game.stepsPerformed : Game → List LoopIter → Nat
  | _, [] => 0
  | g, it :: rest =>
    if g.allDead then 0
    else if it.shutdown then 0
    else
      let g1 := g.readAllInputs it.inputs
      if it.tick then (g1.step).stepsPerformed rest + 1
      else g1.stepsPerformed rest

/-! ### The `game_loop` timer (`game.rs`, lines 180-192) -/

/-- `game.rs` `const UPDATE_INTERVAL` (milliseconds). -/
def UPDATE_INTERVAL : Nat := 500

/-- `Instant::elapsed` against a stored instant: `time::Instant` is a
timestamp (milliseconds) on the monotonic clock. -/
def elapsedSince (now timerStart : Nat) : Nat := now - timerStart

/-- `Instant::checked_sub`: `none` when the result would precede the
clock's epoch. -/
def instantCheckedSub (t d : Nat) : Option Nat :=
  if d ≤ t then some (t - d) else none

/-- The timer update `game_loop` performs when a step fires:
`timer = timer.checked_sub(UPDATE_INTERVAL).unwrap_or(Instant::now())`. -/
def timerAfterStep (timerStart now : Nat) : Nat :=
  (instantCheckedSub timerStart UPDATE_INTERVAL).getD now

/-! ## Helper lemmas -/

theorem getD_of_getElem? {α : Type} [Inhabited α] {l : List α} {i : Nat} {a : α}
    (h : l[i]? = some a) : l.getD i default = a := by
  rw [List.getD_eq_getElem?_getD, h]
  rfl

theorem lt_length_of_getElem? {α : Type} {l : List α} {i : Nat} {a : α}
    (h : l[i]? = some a) : i < l.length := by
  by_contra hge
  rw [List.getElem?_eq_none (by omega)] at h
  exact absurd h (by simp)

theorem hitsNonTailBody_iff (g : Game) (pos : Vector2i) :
    g.hitsNonTailBody pos = true ↔
      ∃ p ∈ g.players, ∃ s, p.snake = some s ∧ pos ∈ s.body.dropLast := by
  unfold Game.hitsNonTailBody
  rw [List.any_eq_true]
  constructor
  · rintro ⟨p, hp, hb⟩
    cases hsn : p.snake with
    | none => rw [hsn] at hb; exact absurd hb (by simp)
    | some s =>
      rw [hsn] at hb
      simp only [List.any_eq_true, beq_iff_eq] at hb
      obtain ⟨bp, hbp, hbpe⟩ := hb
      exact ⟨p, hp, s, hsn, hbpe ▸ hbp⟩
  · rintro ⟨p, hp, s, hsn, hmem⟩
    refine ⟨p, hp, ?_⟩
    rw [hsn]
    simp only [List.any_eq_true, beq_iff_eq]
    exact ⟨pos, hmem, rfl⟩

theorem competesForHead_iff (g : Game) (i : Nat) (pos : Vector2i) :
    g.competesForHead i pos = true ↔
      ∃ j ∈ List.range g.players.length, j ≠ i ∧
        ∃ s, (g.players.getD j default).snake = some s ∧ s.candidateHead = pos := by
  unfold Game.competesForHead
  rw [List.any_eq_true]
  constructor
  · rintro ⟨j, hj, hb⟩
    by_cases hij : j = i
    · rw [if_pos hij] at hb
      exact absurd hb (by simp)
    · rw [if_neg hij] at hb
      cases hsn : (g.players.getD j default).snake with
      | none => rw [hsn] at hb; exact absurd hb (by simp)
      | some s =>
        rw [hsn] at hb
        simp only [beq_iff_eq] at hb
        exact ⟨j, hj, hij, s, hsn, hb⟩
  · rintro ⟨j, hj, hij, s, hsn, hhead⟩
    refine ⟨j, hj, ?_⟩
    rw [if_neg hij, hsn]
    simp [hhead]

/-! ## Claim theorems -/

/-- C4: for every snake (with the nonempty-body invariant under which the
source's `body[0]` access is defined), `move_forward` prepends the new
head `body[0] + unit(look_direction)`; with a positive grow counter the
body length grows by exactly 1 and the counter drops by exactly 1,
otherwise the last body cell is dropped and the length is unchanged. -/
theorem c4_moveForward_spec (s : Snake) (hne : s.body ≠ []) :
    (0 < s.growCounter →
      s.moveForward.body = ((s.body.headD Vector2i.zero).add (Vector2i.fromDirection s.lookDirection)) :: s.body ∧
      s.moveForward.body.length = s.body.length + 1 ∧
      s.moveForward.growCounter = s.growCounter - 1) ∧
    (¬ 0 < s.growCounter →
      s.moveForward.body = ((s.body.headD Vector2i.zero).add (Vector2i.fromDirection s.lookDirection)) :: s.body.dropLast ∧
      s.moveForward.body.length = s.body.length ∧
      s.moveForward.growCounter = s.growCounter) := by
  constructor
  · intro hg
    have h : s.moveForward =
        { s with
            body := ((s.body.headD Vector2i.zero).add (Vector2i.fromDirection s.lookDirection)) :: s.body,
            growCounter := s.growCounter - 1 } := by
      simp only [Snake.moveForward]
      rw [if_pos hg]
    rw [h]
    exact ⟨rfl, by simp, rfl⟩
  · intro hg
    have h : s.moveForward =
        { s with
            body := (((s.body.headD Vector2i.zero).add (Vector2i.fromDirection s.lookDirection)) :: s.body).dropLast } := by
      simp only [Snake.moveForward]
      rw [if_neg hg]
    rw [h, List.dropLast_cons_of_ne_nil hne]
    refine ⟨rfl, ?_, rfl⟩
    have hpos : 0 < s.body.length := List.length_pos.mpr hne
    simp [List.length_dropLast]
    omega

/-- Witness for C4 at the snake of the source's `test_snake_move_forward`
test, in both the growing and the non-growing configuration. -/
theorem c4_moveForward_spec_witness :
    ((Snake.moveForward ⟨Direction.PlusX, [⟨0,0⟩, ⟨-1,0⟩, ⟨-2,0⟩], 2⟩).body
       = [⟨1,0⟩, ⟨0,0⟩, ⟨-1,0⟩, ⟨-2,0⟩] ∧
     (Snake.moveForward ⟨Direction.PlusX, [⟨0,0⟩, ⟨-1,0⟩, ⟨-2,0⟩], 0⟩).body
       = [⟨1,0⟩, ⟨0,0⟩, ⟨-1,0⟩]) := by
  have h1 := (c4_moveForward_spec ⟨Direction.PlusX, [⟨0,0⟩, ⟨-1,0⟩, ⟨-2,0⟩], 2⟩ (by decide)).1 (by decide)
  have h2 := (c4_moveForward_spec ⟨Direction.PlusX, [⟨0,0⟩, ⟨-1,0⟩, ⟨-2,0⟩], 0⟩ (by decide)).2 (by decide)
  exact ⟨by rw [h1.1]; decide, by rw [h2.1]; decide⟩

/-- C3 counterexample: the claim computes the rejected ("backward")
direction as `body[0] - body[1]`, but the source computes
`body[1] - body[0]`.  For the snake with head `(0,0)`, neck `(-1,0)`
and facing `+X`: `body[0] - body[1] = (1,0)`, so the claim predicts that
`MinusX` (unit `(-1,0)`, different from `(1,0)`) is accepted and becomes
the new facing — but the source rejects it and keeps facing `+X`. -/
theorem c3_counterexample :
    ((Snake.body ⟨Direction.PlusX, [⟨0,0⟩, ⟨-1,0⟩], 0⟩).getD 0 Vector2i.zero).sub
        ((Snake.body ⟨Direction.PlusX, [⟨0,0⟩, ⟨-1,0⟩], 0⟩).getD 1 Vector2i.zero) = ⟨1,0⟩ ∧
    Vector2i.fromDirection Direction.MinusX ≠ ⟨1,0⟩ ∧
    (Snake.trySetLookDirection ⟨Direction.PlusX, [⟨0,0⟩, ⟨-1,0⟩], 0⟩ Direction.MinusX).1.lookDirection
      ≠ Direction.MinusX := by
  decide

/-- C3 amended: for every snake whose first two body cells are adjacent,
`try_set_look_direction(requested)` rejects exactly the direction whose
unit vector equals `body[1] - body[0]` (the back-into-the-neck
direction), in which case the snake is unchanged; every other direction
is accepted and becomes the new facing; and the returned flag is true if
and only if the resulting facing equals the requested direction. -/
theorem c3_trySetLookDirection_spec (s : Snake) (d : Direction)
    (hlen : 2 ≤ s.body.length)
    (hadj : (s.backwardDirection).x.natAbs + (s.backwardDirection).y.natAbs = 1) :
    (Vector2i.fromDirection d = s.backwardDirection →
      (s.trySetLookDirection d).1 = s) ∧
    (Vector2i.fromDirection d ≠ s.backwardDirection →
      (s.trySetLookDirection d).1 = { s with lookDirection := d }) ∧
    ((s.trySetLookDirection d).2 = true ↔ (s.trySetLookDirection d).1.lookDirection = d) := by
  refine ⟨fun heq => ?_, fun hne => ?_, ?_⟩
  · simp only [Snake.trySetLookDirection]
    rw [if_neg (not_not_intro heq.symm)]
  · simp only [Snake.trySetLookDirection]
    rw [if_pos (Ne.symm hne)]
  · by_cases hc : s.backwardDirection = Vector2i.fromDirection d
    · simp only [Snake.trySetLookDirection]
      rw [if_neg (not_not_intro hc)]
      simp only [beq_iff_eq]
      exact eq_comm
    · simp only [Snake.trySetLookDirection]
      rw [if_pos hc]
      simp

/-- Witness for C3's amended theorem on the `test_snake_try_set_look_direction`
snake: `PlusY` is accepted, `MinusX` (the backward direction) is rejected. -/
theorem c3_trySetLookDirection_spec_witness :
    (Snake.trySetLookDirection ⟨Direction.PlusX, [⟨0,0⟩, ⟨-1,0⟩, ⟨-2,0⟩], 0⟩ Direction.PlusY).1
      = ⟨Direction.PlusY, [⟨0,0⟩, ⟨-1,0⟩, ⟨-2,0⟩], 0⟩ ∧
    (Snake.trySetLookDirection ⟨Direction.PlusX, [⟨0,0⟩, ⟨-1,0⟩, ⟨-2,0⟩], 0⟩ Direction.MinusX).1
      = ⟨Direction.PlusX, [⟨0,0⟩, ⟨-1,0⟩, ⟨-2,0⟩], 0⟩ := by
  have h1 := (c3_trySetLookDirection_spec ⟨Direction.PlusX, [⟨0,0⟩, ⟨-1,0⟩, ⟨-2,0⟩], 0⟩
      Direction.PlusY (by decide) (by decide)).2.1 (by decide)
  have h2 := (c3_trySetLookDirection_spec ⟨Direction.PlusX, [⟨0,0⟩, ⟨-1,0⟩, ⟨-2,0⟩], 0⟩
      Direction.MinusX (by decide) (by decide)).1 (by decide)
  exact ⟨h1, h2⟩

/-- C8: the spawn table.  For field size `(W,H)` and initial length `L`
(Rust `i32` division `W/2` is `Int.tdiv`): slot 0 spawns at
`(W/2 - L, H/2)` facing `-X`, slot 1 at `(W/2, H/2 - L)` facing `-Y`,
slot 2 at `(W/2 + L, H/2)` facing `+X`, slot 3 at `(W/2, H/2 + L)`
facing `+Y`, and every slot ≥ 4 is rejected; `register_player` assigns
roster slots sequentially (the returned index is the previous roster
length, the new player is appended at that slot), and registering at
slot ≥ 4 is rejected. -/
theorem c8_spawn_table :
    (∀ (W H : Int) (L : Nat),
      Game.calcSpawnPos 0 L ⟨W, H⟩ = some (⟨Int.tdiv W 2 - (L : Int), Int.tdiv H 2⟩, Direction.MinusX) ∧
      Game.calcSpawnPos 1 L ⟨W, H⟩ = some (⟨Int.tdiv W 2, Int.tdiv H 2 - (L : Int)⟩, Direction.MinusY) ∧
      Game.calcSpawnPos 2 L ⟨W, H⟩ = some (⟨Int.tdiv W 2 + (L : Int), Int.tdiv H 2⟩, Direction.PlusX) ∧
      Game.calcSpawnPos 3 L ⟨W, H⟩ = some (⟨Int.tdiv W 2, Int.tdiv H 2 + (L : Int)⟩, Direction.PlusY) ∧
      ∀ i, 4 ≤ i → Game.calcSpawnPos i L ⟨W, H⟩ = none) ∧
    (∀ (g g1 : Game) (k : Nat), g.registerPlayer = some (g1, k) →
      k = g.players.length ∧ ∃ p : Player, g1.players = g.players ++ [p]) ∧
    (∀ g : Game, 4 ≤ g.players.length → g.registerPlayer = none) := by
  refine ⟨fun W H L => ⟨rfl, rfl, rfl, rfl, fun i hi => ?_⟩, fun g g1 k h => ?_, fun g hg => ?_⟩
  · match i, hi with
    | (n + 4), _ => rfl
  · simp only [Game.registerPlayer] at h
    rcases hspawn : Game.calcSpawnPos g.players.length INITIAL_LENGTH g.fieldSize with _ | ⟨pos, dir⟩
    · rw [hspawn] at h
      exact absurd h (by simp)
    · rw [hspawn] at h
      dsimp only at h
      rcases hsn : Snake.new pos dir INITIAL_LENGTH with _ | sn
      · rw [hsn] at h
        exact absurd h (by simp)
      · rw [hsn] at h
        simp only [Option.some.injEq, Prod.mk.injEq] at h
        exact ⟨h.2.symm, ⟨_, by rw [← h.1]⟩⟩
  · simp only [Game.registerPlayer]
    have hnone : Game.calcSpawnPos g.players.length INITIAL_LENGTH g.fieldSize = none := by
      match hlen : g.players.length, hg with
      | (n + 4), _ => rfl
    rw [hnone]

/-- Witness for C8 at the inputs of the source's `test_calc_spawn_pos`
tests: field `10x10`, length `3`, all four slots, plus rejection of a
fifth player. -/
theorem c8_spawn_table_witness :
    Game.calcSpawnPos 0 3 ⟨10, 10⟩ = some (⟨2, 5⟩, Direction.MinusX) ∧
    Game.calcSpawnPos 1 3 ⟨10, 10⟩ = some (⟨5, 2⟩, Direction.MinusY) ∧
    Game.calcSpawnPos 2 3 ⟨10, 10⟩ = some (⟨8, 5⟩, Direction.PlusX) ∧
    Game.calcSpawnPos 3 3 ⟨10, 10⟩ = some (⟨5, 8⟩, Direction.PlusY) ∧
    Game.calcSpawnPos 4 3 ⟨10, 10⟩ = none ∧
    Game.registerPlayer ⟨List.replicate 4 default, ⟨10, 10⟩, []⟩ = none := by
  obtain ⟨h0, h1, h2, h3, h4⟩ := c8_spawn_table.1 10 10 3
  refine ⟨?_, ?_, ?_, ?_, h4 4 (by norm_num), ?_⟩
  · rw [h0]; decide
  · rw [h1]; decide
  · rw [h2]; decide
  · rw [h3]; decide
  · exact c8_spawn_table.2.2 ⟨List.replicate 4 default, ⟨10, 10⟩, []⟩ (by decide)

/-- C1: for every game state and alive player, if the candidate head
(current head plus the unit vector of the facing) lies outside the
field, or coincides with a body cell other than the last (tail) cell of
any alive snake (the acting one included), the predicted action is
`Die`; and if the candidate head equals the tail cell of some alive
snake, is in bounds, hits no non-tail body cell, and no other alive
player's candidate head equals it, the predicted action is `Move`. -/
theorem c1_predict_die_and_tail_move (g : Game) (i : Nat) (pl : Player) (si : Snake)
    (hp : g.players[i]? = some pl) (hs : pl.snake = some si) :
    ((g.outOfField si.candidateHead = true ∨
        ∃ p ∈ g.players, ∃ s, p.snake = some s ∧ si.candidateHead ∈ s.body.dropLast) →
      g.predictNextAction i = ActionStep.Die) ∧
    (g.outOfField si.candidateHead = false →
      (∀ p ∈ g.players, ∀ s, p.snake = some s → si.candidateHead ∉ s.body.dropLast) →
      (∃ p ∈ g.players, ∃ s, p.snake = some s ∧ s.body.getLast? = some si.candidateHead) →
      (∀ j ∈ List.range g.players.length, j ≠ i →
        ∀ s, (g.players.getD j default).snake = some s → s.candidateHead ≠ si.candidateHead) →
      g.predictNextAction i = ActionStep.Move) := by
  have hg : g.players.getD i default = pl := getD_of_getElem? hp
  have hpredict : g.predictNextAction i =
      (if g.outOfField si.candidateHead then ActionStep.Die
       else if g.hitsNonTailBody si.candidateHead then ActionStep.Die
       else if g.competesForHead i si.candidateHead then ActionStep.Hold
       else ActionStep.Move) := by
    simp only [Game.predictNextAction, hg, hs]
  constructor
  · intro hdie
    rw [hpredict]
    cases houtb : g.outOfField si.candidateHead with
    | true => simp
    | false =>
      rcases hdie with houtb2 | hhit
      · exact absurd houtb2 (by simp [houtb])
      · simp [(hitsNonTailBody_iff g si.candidateHead).mpr hhit]
  · intro houtb hnohit _htail hnocompete
    rw [hpredict, if_neg (by simp [houtb])]
    have hhits : g.hitsNonTailBody si.candidateHead = false := by
      cases hh : g.hitsNonTailBody si.candidateHead with
      | false => rfl
      | true =>
        obtain ⟨p, hpmem, s, hsn, hmem⟩ := (hitsNonTailBody_iff g si.candidateHead).mp hh
        exact absurd hmem (hnohit p hpmem s hsn)
    have hcomp : g.competesForHead i si.candidateHead = false := by
      cases hc : g.competesForHead i si.candidateHead with
      | false => rfl
      | true =>
        obtain ⟨j, hj, hij, s, hsn, hhead⟩ := (competesForHead_iff g i si.candidateHead).mp hc
        exact absurd hhead (hnocompete j hj hij s hsn)
    rw [if_neg (by simp [hhits]), if_neg (by simp [hcomp])]

/-- Witness for C1 at the configurations of the source's
`test_predict_next_action` test on a 4x4 field: a snake about to leave
the field dies, and a snake about to step onto its own tail cell moves. -/
theorem c1_predict_die_and_tail_move_witness :
    Game.predictNextAction ⟨[⟨some ⟨Direction.PlusY, [⟨0,3⟩, ⟨0,2⟩], 0⟩, 0⟩], ⟨4,4⟩, []⟩ 0
      = ActionStep.Die ∧
    Game.predictNextAction ⟨[⟨some ⟨Direction.MinusY, [⟨1,2⟩, ⟨2,2⟩, ⟨2,1⟩, ⟨1,1⟩], 0⟩, 0⟩], ⟨4,4⟩, []⟩ 0
      = ActionStep.Move := by
  constructor
  · exact (c1_predict_die_and_tail_move ⟨[⟨some ⟨Direction.PlusY, [⟨0,3⟩, ⟨0,2⟩], 0⟩, 0⟩], ⟨4,4⟩, []⟩ 0
      ⟨some ⟨Direction.PlusY, [⟨0,3⟩, ⟨0,2⟩], 0⟩, 0⟩ ⟨Direction.PlusY, [⟨0,3⟩, ⟨0,2⟩], 0⟩
      (by decide) (by decide)).1 (Or.inl (by decide))
  · exact (c1_predict_die_and_tail_move ⟨[⟨some ⟨Direction.MinusY, [⟨1,2⟩, ⟨2,2⟩, ⟨2,1⟩, ⟨1,1⟩], 0⟩, 0⟩], ⟨4,4⟩, []⟩ 0
      ⟨some ⟨Direction.MinusY, [⟨1,2⟩, ⟨2,2⟩, ⟨2,1⟩, ⟨1,1⟩], 0⟩, 0⟩ ⟨Direction.MinusY, [⟨1,2⟩, ⟨2,2⟩, ⟨2,1⟩, ⟨1,1⟩], 0⟩
      (by decide) (by decide)).2 (by decide) (by decide) (by decide) (by decide)

theorem applyAction_players_getElem?_ne (g : Game) (a : ActionStep) (i j : Nat)
    (hij : j ≠ i) : (g.applyAction a i).players[j]? = g.players[j]? := by
  cases a with
  | Hold => rfl
  | Die => exact List.getElem?_set_ne (fun h => hij h.symm)
  | Move =>
    show (g.movePlayer i).players[j]? = g.players[j]?
    unfold Game.movePlayer
    cases (g.players.getD i default).snake with
    | none => rfl
    | some sn =>
      dsimp only
      cases g.pizzas.findIdx? (fun p => p == (sn.moveForward.body.headD Vector2i.zero)) with
      | none => exact List.getElem?_set_ne (fun h => hij h.symm)
      | some k => exact List.getElem?_set_ne (fun h => hij h.symm)

theorem foldl_applyAction_preserves_entry (acts : List ActionStep) (i : Nat)
    (hhold : acts.getD i ActionStep.Hold = ActionStep.Hold) :
    ∀ (l : List Nat) (g : Game),
      (l.foldl (fun g1 k => g1.applyAction (acts.getD k ActionStep.Hold) k) g).players[i]?
        = g.players[i]? := by
  intro l
  induction l with
  | nil => intro g; rfl
  | cons k t ih =>
    intro g
    rw [List.foldl_cons, ih]
    by_cases hki : k = i
    · rw [hki, hhold]
      rfl
    · exact applyAction_players_getElem?_ne g _ k i (fun h => hki h.symm)

theorem step_actions_getD (g : Game) (i : Nat) (hi : i < g.players.length) :
    (((List.range g.players.length).map (fun j => g.predictNextAction j)).getD i ActionStep.Hold)
      = g.predictNextAction i := by
  rw [List.getD_eq_getElem?_getD, List.getElem?_map, List.getElem?_range hi]
  rfl

theorem step_players_getElem?_of_hold (g : Game) (i : Nat)
    (hi : i < g.players.length) (hhold : g.predictNextAction i = ActionStep.Hold) :
    (g.step).players[i]? = g.players[i]? := by
  unfold Game.step
  exact foldl_applyAction_preserves_entry _ i (by rw [step_actions_getD g i hi, hhold]) _ g

/-- C2: whenever two or more alive players' candidate heads (computed
from the pre-step state) coincide, are in bounds and fall on no alive
snake's non-tail body cell, each of those players' predicted action is
`Hold` (this includes three or more players converging on the same
cell), and applying the step leaves each such player's roster entry —
snake body, score, and being alive — unchanged. -/
theorem c2_converging_heads_hold (g : Game) (i : Nat) (pl : Player) (si : Snake)
    (hp : g.players[i]? = some pl) (hs : pl.snake = some si)
    (houtb : g.outOfField si.candidateHead = false)
    (hnohit : ∀ p ∈ g.players, ∀ s, p.snake = some s → si.candidateHead ∉ s.body.dropLast)
    (hcompete : ∃ j ∈ List.range g.players.length, j ≠ i ∧
      ∃ s, (g.players.getD j default).snake = some s ∧ s.candidateHead = si.candidateHead) :
    g.predictNextAction i = ActionStep.Hold ∧ (g.step).players[i]? = some pl := by
  have hg : g.players.getD i default = pl := getD_of_getElem? hp
  have hpredict : g.predictNextAction i =
      (if g.outOfField si.candidateHead then ActionStep.Die
       else if g.hitsNonTailBody si.candidateHead then ActionStep.Die
       else if g.competesForHead i si.candidateHead then ActionStep.Hold
       else ActionStep.Move) := by
    simp only [Game.predictNextAction, hg, hs]
  have hhits : g.hitsNonTailBody si.candidateHead = false := by
    cases hh : g.hitsNonTailBody si.candidateHead with
    | false => rfl
    | true =>
      obtain ⟨p, hpmem, s, hsn, hmem⟩ := (hitsNonTailBody_iff g si.candidateHead).mp hh
      exact absurd hmem (hnohit p hpmem s hsn)
  have hhold : g.predictNextAction i = ActionStep.Hold := by
    rw [hpredict, if_neg (by simp [houtb]), if_neg (by simp [hhits]),
      if_pos ((competesForHead_iff g i si.candidateHead).mpr hcompete)]
  exact ⟨hhold, by rw [step_players_getElem?_of_hold g i (lt_length_of_getElem? hp) hhold, hp]⟩

/-- Witness for C2: on a 4x4 field, the snake `[(2,3),(1,3)]` facing
`+X` and the snake `[(3,2),(3,1),(3,0)]` facing `+Y` both predict head
`(3,3)`; player 0 holds and its entry survives the step unchanged. -/
theorem c2_converging_heads_hold_witness :
    Game.predictNextAction
      ⟨[⟨some ⟨Direction.PlusX, [⟨2,3⟩, ⟨1,3⟩], 0⟩, 0⟩,
        ⟨some ⟨Direction.PlusY, [⟨3,2⟩, ⟨3,1⟩, ⟨3,0⟩], 0⟩, 0⟩], ⟨4,4⟩, []⟩ 0 = ActionStep.Hold ∧
    (Game.step
      ⟨[⟨some ⟨Direction.PlusX, [⟨2,3⟩, ⟨1,3⟩], 0⟩, 0⟩,
        ⟨some ⟨Direction.PlusY, [⟨3,2⟩, ⟨3,1⟩, ⟨3,0⟩], 0⟩, 0⟩], ⟨4,4⟩, []⟩).players[0]?
      = some ⟨some ⟨Direction.PlusX, [⟨2,3⟩, ⟨1,3⟩], 0⟩, 0⟩ := by
  exact c2_converging_heads_hold
    ⟨[⟨some ⟨Direction.PlusX, [⟨2,3⟩, ⟨1,3⟩], 0⟩, 0⟩,
      ⟨some ⟨Direction.PlusY, [⟨3,2⟩, ⟨3,1⟩, ⟨3,0⟩], 0⟩, 0⟩], ⟨4,4⟩, []⟩ 0
    ⟨some ⟨Direction.PlusX, [⟨2,3⟩, ⟨1,3⟩], 0⟩, 0⟩ ⟨Direction.PlusX, [⟨2,3⟩, ⟨1,3⟩], 0⟩
    (by decide) (by decide) (by decide) (by decide) (by decide)

theorem findIdx?_beq_first {α : Type} [DecidableEq α] (a : α) :
    ∀ (l : List α) (base : Nat), a ∈ l →
      ∃ j, l.findIdx? (fun p => p == a) base = some (base + j) ∧
        l[j]? = some a ∧ ∀ k < j, l[k]? ≠ some a := by
  intro l
  induction l with
  | nil => intro base h; exact absurd h (by simp)
  | cons b t ih =>
    intro base h
    by_cases hba : b = a
    · refine ⟨0, ?_, by simp [hba], fun k hk => absurd hk (by omega)⟩
      rw [List.findIdx?_cons, if_pos (by simp [hba])]
      simp
    · have hat : a ∈ t := by
        rcases List.mem_cons.mp h with h1 | h2
        · exact absurd h1.symm hba
        · exact h2
      obtain ⟨j, hj1, hj2, hj3⟩ := ih (base + 1) hat
      refine ⟨j + 1, ?_, by simpa using hj2, ?_⟩
      · rw [List.findIdx?_cons, if_neg (by simp [hba]), hj1]
        congr 1
        omega
      · intro k hk
        cases k with
        | zero => simp [hba]
        | succ k2 => simpa using hj3 k2 (by omega)

theorem moveForward_headD (s : Snake) (hne : s.body ≠ []) :
    s.moveForward.body.headD Vector2i.zero = s.candidateHead := by
  simp only [Snake.moveForward, Snake.candidateHead]
  by_cases hg : s.growCounter > 0
  · rw [if_pos hg]
    rfl
  · rw [if_neg hg, List.dropLast_cons_of_ne_nil hne]
    rfl

theorem moveForward_growCounter_nonneg (s : Snake) (h : 0 ≤ s.growCounter) :
    0 ≤ s.moveForward.growCounter := by
  simp only [Snake.moveForward]
  by_cases hg : s.growCounter > 0
  · rw [if_pos hg]
    dsimp only
    omega
  · rw [if_neg hg]
    exact h

theorem moveForward_grow_pos_length (s : Snake) (h : 0 < s.growCounter) :
    s.moveForward.body.length = s.body.length + 1 := by
  simp only [Snake.moveForward]
  rw [if_pos h]
  simp

theorem getD_set_kill_score (l : List Player) (i j : Nat) :
    ((l.set i (l.getD i default).kill).getD j default).score = (l.getD j default).score := by
  by_cases hi : i < l.length
  · by_cases hij : j = i
    · subst hij
      rw [List.getD_eq_getElem?_getD, List.getElem?_set_self (by omega),
        List.getD_eq_getElem?_getD]
      rfl
    · rw [List.getD_eq_getElem?_getD, List.getElem?_set_ne (fun h => hij h.symm),
        List.getD_eq_getElem?_getD]
  · rw [List.set_eq_of_length_le (by omega)]

theorem getD_set_score_ge (l : List Player) (i j : Nat) (p : Player)
    (hscore : (l.getD i default).score ≤ p.score) :
    (l.getD j default).score ≤ ((l.set i p).getD j default).score := by
  by_cases hi : i < l.length
  · by_cases hij : j = i
    · subst hij
      rw [List.getD_eq_getElem?_getD (l.set j p), List.getElem?_set_self (by omega)]
      exact hscore
    · rw [List.getD_eq_getElem?_getD (l.set i p), List.getElem?_set_ne (fun h => hij h.symm),
        ← List.getD_eq_getElem?_getD]
  · rw [List.set_eq_of_length_le (by omega)]

theorem applyAction_score_mono (g : Game) (a : ActionStep) (i j : Nat) :
    (g.players.getD j default).score ≤ ((g.applyAction a i).players.getD j default).score := by
  cases a with
  | Hold => exact le_refl _
  | Die => exact le_of_eq (getD_set_kill_score g.players i j).symm
  | Move =>
    show _ ≤ ((g.movePlayer i).players.getD j default).score
    unfold Game.movePlayer
    cases (g.players.getD i default).snake with
    | none => exact le_refl _
    | some sn =>
      dsimp only
      cases g.pizzas.findIdx? (fun p => p == (sn.moveForward.body.headD Vector2i.zero)) with
      | none => exact getD_set_score_ge _ i j _ (le_refl _)
      | some k => exact getD_set_score_ge _ i j _ (Nat.le_succ _)

theorem foldl_applyAction_score_mono (acts : List ActionStep) (j : Nat) :
    ∀ (l : List Nat) (g : Game),
      (g.players.getD j default).score ≤
        ((l.foldl (fun g1 k => g1.applyAction (acts.getD k ActionStep.Hold) k) g).players.getD j
          default).score := by
  intro l
  induction l with
  | nil => intro g; exact le_refl _
  | cons k t ih =>
    intro g
    rw [List.foldl_cons]
    exact le_trans (applyAction_score_mono g _ k j) (ih _)

/-- C5: score and the food pool change only through the move-and-eat
logic.  When a `Move` is applied to player `i` and the moved snake's new
head equals a food position, that player's score grows by exactly 1,
exactly the first matching food item is removed from the pool, and the
snake's grow counter increases by 1, so the next `move_forward` does not
shorten the tail; a `Move` onto no food, a `Hold` and a `Die` leave
scores and the food pool unchanged; consequently every player's score is
monotonically non-decreasing across `step`. -/
theorem c5_move_and_eat :
    (∀ (g : Game) (i : Nat) (pl : Player) (si : Snake),
      g.players[i]? = some pl → pl.snake = some si → si.body ≠ [] →
      ((si.candidateHead ∈ g.pizzas →
        ∃ j, g.pizzas[j]? = some si.candidateHead ∧
          (∀ k < j, g.pizzas[k]? ≠ some si.candidateHead) ∧
          g.movePlayer i =
            { g with
                players := g.players.set i
                  { snake := some (si.moveForward.eat 1), score := pl.score + 1 },
                pizzas := g.pizzas.eraseIdx j } ∧
          (si.moveForward.eat 1).growCounter = si.moveForward.growCounter + 1 ∧
          (0 ≤ si.growCounter →
            (si.moveForward.eat 1).moveForward.body.length
              = (si.moveForward.eat 1).body.length + 1)) ∧
       (si.candidateHead ∉ g.pizzas →
        g.movePlayer i =
          { g with
              players := g.players.set i { snake := some si.moveForward, score := pl.score } }))) ∧
    (∀ (g : Game) (i : Nat),
      (g.applyAction ActionStep.Die i).pizzas = g.pizzas ∧
      g.applyAction ActionStep.Hold i = g ∧
      ∀ j, ((g.applyAction ActionStep.Die i).players.getD j default).score
        = (g.players.getD j default).score) ∧
    (∀ (g : Game) (j : Nat),
      (g.players.getD j default).score ≤ ((g.step).players.getD j default).score) := by
  refine ⟨?_, ?_, ?_⟩
  · intro g i pl si hp hs hne
    have hg : g.players.getD i default = pl := getD_of_getElem? hp
    have hmove : g.movePlayer i =
        (match g.pizzas.findIdx? (fun p => p == si.candidateHead) with
         | some pizzaIndex =>
           { g with
               players := g.players.set i
                 { snake := some (si.moveForward.eat 1), score := pl.score + 1 },
               pizzas := g.pizzas.eraseIdx pizzaIndex }
         | none =>
           { g with
               players := g.players.set i { snake := some si.moveForward, score := pl.score } }) := by
      simp only [Game.movePlayer, hg, hs, moveForward_headD si hne]
    constructor
    · intro hmem
      obtain ⟨j, hj1, hj2, hj3⟩ := findIdx?_beq_first si.candidateHead g.pizzas 0 hmem
      rw [Nat.zero_add] at hj1
      refine ⟨j, hj2, hj3, ?_, rfl, ?_⟩
      · rw [hmove, hj1]
      · intro hnn
        exact moveForward_grow_pos_length (si.moveForward.eat 1)
          (by
            have := moveForward_growCounter_nonneg si hnn
            simp only [Snake.eat]
            omega)
    · intro hnomem
      have hnone : g.pizzas.findIdx? (fun p => p == si.candidateHead) = none := by
        rw [List.findIdx?_eq_none_iff]
        intro x hx
        simp only [beq_eq_false_iff_ne, ne_eq]
        intro hxe
        exact hnomem (hxe ▸ hx)
      rw [hmove, hnone]
  · intro g i
    exact ⟨rfl, rfl, fun j => getD_set_kill_score g.players i j⟩
  · intro g j
    exact foldl_applyAction_score_mono _ j _ g

/-- Witness for C5 at the second move of the source's `test_move_player`
test: on a 4x4 field the snake `[(0,2),(0,1)]` facing `+Y` moves onto
the pizza at `(0,3)`, scoring 1 and emptying the pool. -/
theorem c5_move_and_eat_witness :
    ∃ j, ([(⟨0,3⟩ : Vector2i)])[j]? = some (⟨0,3⟩ : Vector2i) ∧
      (∀ k < j, ([(⟨0,3⟩ : Vector2i)])[k]? ≠ some (⟨0,3⟩ : Vector2i)) ∧
      Game.movePlayer ⟨[⟨some ⟨Direction.PlusY, [⟨0,2⟩, ⟨0,1⟩], 0⟩, 0⟩], ⟨4,4⟩, [⟨0,3⟩]⟩ 0 =
        { players :=
            [⟨some ⟨Direction.PlusY, [⟨0,2⟩, ⟨0,1⟩], 0⟩, 0⟩].set 0
              { snake := some ((Snake.moveForward ⟨Direction.PlusY, [⟨0,2⟩, ⟨0,1⟩], 0⟩).eat 1),
                score := 0 + 1 },
          fieldSize := ⟨4,4⟩,
          pizzas := [(⟨0,3⟩ : Vector2i)].eraseIdx j } ∧
      ((Snake.moveForward ⟨Direction.PlusY, [⟨0,2⟩, ⟨0,1⟩], 0⟩).eat 1).growCounter
        = (Snake.moveForward ⟨Direction.PlusY, [⟨0,2⟩, ⟨0,1⟩], 0⟩).growCounter + 1 ∧
      (0 ≤ (0 : Int) →
        ((Snake.moveForward ⟨Direction.PlusY, [⟨0,2⟩, ⟨0,1⟩], 0⟩).eat 1).moveForward.body.length
          = ((Snake.moveForward ⟨Direction.PlusY, [⟨0,2⟩, ⟨0,1⟩], 0⟩).eat 1).body.length + 1) := by
  have h := (c5_move_and_eat.1 ⟨[⟨some ⟨Direction.PlusY, [⟨0,2⟩, ⟨0,1⟩], 0⟩, 0⟩], ⟨4,4⟩, [⟨0,3⟩]⟩ 0
    ⟨some ⟨Direction.PlusY, [⟨0,2⟩, ⟨0,1⟩], 0⟩, 0⟩ ⟨Direction.PlusY, [⟨0,2⟩, ⟨0,1⟩], 0⟩
    (by decide) (by decide) (by decide)).1 (by decide)
  exact h

theorem readOneInput_score (p : Player) (d : Direction) :
    (p.readOneInput d).score = p.score := by
  unfold Player.readOneInput
  split
  · rfl
  · rfl

theorem readInputs_score : ∀ (ds : List Direction) (p : Player),
    (p.readInputs ds).score = p.score := by
  intro ds
  induction ds with
  | nil => intro p; rfl
  | cons d t ih =>
    intro p
    show (Player.readInputs (p.readOneInput d) t).score = p.score
    rw [ih, readOneInput_score]

theorem mapIdx_score_zero :
    ∀ (l : List Player) (f : Nat → Player → Player),
      (∀ i p, (f i p).score = p.score) → (∀ p ∈ l, p.score = 0) →
      ∀ p ∈ l.mapIdx f, p.score = 0 := by
  intro l
  induction l with
  | nil => intro f _ _ p hp; exact absurd hp (by simp)
  | cons a t ih =>
    intro f hf h p hp
    rw [List.mapIdx_cons] at hp
    rcases List.mem_cons.mp hp with h1 | h2
    · rw [h1, hf]
      exact h a (by simp)
    · exact ih (fun i => f (i + 1)) (fun i q => hf (i + 1) q) (fun q hq => h q (by simp [hq])) p h2

theorem registerPlayer_inv {g g1 : Game} {k : Nat} (h : g.registerPlayer = some (g1, k)) :
    g1.pizzas = g.pizzas ∧ ∀ p ∈ g1.players, p ∈ g.players ∨ p.score = 0 := by
  simp only [Game.registerPlayer] at h
  rcases hspawn : Game.calcSpawnPos g.players.length INITIAL_LENGTH g.fieldSize with _ | ⟨pos, dir⟩
  · rw [hspawn] at h
    exact absurd h (by simp)
  · rw [hspawn] at h
    dsimp only at h
    rcases hsn : Snake.new pos dir INITIAL_LENGTH with _ | sn
    · rw [hsn] at h
      exact absurd h (by simp)
    · rw [hsn] at h
      simp only [Option.some.injEq, Prod.mk.injEq] at h
      rw [← h.1]
      refine ⟨rfl, fun p hp => ?_⟩
      rcases List.mem_append.mp hp with h1 | h2
      · exact Or.inl h1
      · right
        rw [List.mem_singleton.mp h2]

theorem getD_score_zero (l : List Player) (i : Nat) (h : ∀ p ∈ l, p.score = 0) :
    (l.getD i default).score = 0 := by
  by_cases hi : i < l.length
  · rw [List.getD_eq_getElem l default hi]
    exact h _ (List.getElem_mem hi)
  · rw [List.getD_eq_getElem?_getD, List.getElem?_eq_none (by omega)]
    rfl

theorem set_score_zero (l : List Player) (i : Nat) (p : Player)
    (h : ∀ q ∈ l, q.score = 0) (hp : p.score = 0) : ∀ q ∈ l.set i p, q.score = 0 := by
  intro q hq
  rcases List.mem_or_eq_of_mem_set hq with h1 | h2
  · exact h q h1
  · rw [h2, hp]

theorem applyAction_no_food_inv (g : Game) (a : ActionStep) (i : Nat)
    (hpz : g.pizzas = []) (hsc : ∀ p ∈ g.players, p.score = 0) :
    (g.applyAction a i).pizzas = [] ∧ ∀ p ∈ (g.applyAction a i).players, p.score = 0 := by
  cases a with
  | Hold => exact ⟨hpz, hsc⟩
  | Die =>
    refine ⟨hpz, ?_⟩
    show ∀ p ∈ g.players.set i (g.players.getD i default).kill, p.score = 0
    exact set_score_zero _ i _ hsc (getD_score_zero g.players i hsc)
  | Move =>
    show (g.movePlayer i).pizzas = [] ∧ ∀ p ∈ (g.movePlayer i).players, p.score = 0
    unfold Game.movePlayer
    cases (g.players.getD i default).snake with
    | none => exact ⟨hpz, hsc⟩
    | some sn =>
      dsimp only
      rw [hpz, List.findIdx?_nil]
      dsimp only
      exact ⟨rfl, set_score_zero _ i _ hsc (getD_score_zero g.players i hsc)⟩

theorem foldl_applyAction_no_food_inv (acts : List ActionStep) :
    ∀ (l : List Nat) (g : Game),
      g.pizzas = [] → (∀ p ∈ g.players, p.score = 0) →
      (l.foldl (fun g1 k => g1.applyAction (acts.getD k ActionStep.Hold) k) g).pizzas = [] ∧
      ∀ p ∈ (l.foldl (fun g1 k => g1.applyAction (acts.getD k ActionStep.Hold) k) g).players,
        p.score = 0 := by
  intro l
  induction l with
  | nil => intro g hpz hsc; exact ⟨hpz, hsc⟩
  | cons k t ih =>
    intro g hpz hsc
    rw [List.foldl_cons]
    obtain ⟨h1, h2⟩ := applyAction_no_food_inv g (acts.getD k ActionStep.Hold) k hpz hsc
    exact ih _ h1 h2

/-- C7: in every game state reachable through the engine's own
operations from `Game::new` (registrations, input drains, steps), the
food pool is empty — no engine operation ever adds a food item, the
food-placement search being dead code — and consequently every player's
score is 0. -/
theorem c7_no_food_ever (g : Game) (hre : Reachable g) :
    g.pizzas = [] ∧ ∀ p ∈ g.players, p.score = 0 := by
  induction hre with
  | new fieldSize => exact ⟨rfl, fun p hp => absurd hp (by simp [Game.new])⟩
  | register hre0 hreg ih =>
    obtain ⟨hpz, hmem⟩ := registerPlayer_inv hreg
    refine ⟨by rw [hpz]; exact ih.1, fun p hp => ?_⟩
    rcases hmem p hp with h1 | h2
    · exact ih.2 p h1
    · exact h2
  | inputs ds hre0 ih =>
    rename_i g0
    refine ⟨ih.1, ?_⟩
    show ∀ p ∈ g0.players.mapIdx (fun i p => p.readInputs (ds.getD i [])), p.score = 0
    exact mapIdx_score_zero g0.players _ (fun i p => readInputs_score (ds.getD i []) p) ih.2
  | tick _ ih =>
    rename_i g0 _
    show (Game.step g0).pizzas = [] ∧ ∀ p ∈ (Game.step g0).players, p.score = 0
    unfold Game.step
    exact foldl_applyAction_no_food_inv _ _ g0 ih.1 ih.2

/-- Witness for C7: the state reached by creating a 10x10 game,
registering one player and stepping once has an empty food pool and
score 0. -/
theorem c7_no_food_ever_witness :
    (Game.step ⟨[⟨some ⟨Direction.MinusX, [⟨3,5⟩, ⟨4,5⟩], 0⟩, 0⟩], ⟨10,10⟩, []⟩).pizzas = [] ∧
    ∀ p ∈ (Game.step ⟨[⟨some ⟨Direction.MinusX, [⟨3,5⟩, ⟨4,5⟩], 0⟩, 0⟩], ⟨10,10⟩, []⟩).players,
      p.score = 0 := by
  exact c7_no_food_ever _ (Reachable.tick
    (@Reachable.register (Game.new ⟨10,10⟩)
      ⟨[⟨some ⟨Direction.MinusX, [⟨3,5⟩, ⟨4,5⟩], 0⟩, 0⟩], ⟨10,10⟩, []⟩ 0
      (Reachable.new ⟨10,10⟩) (by decide)))

/-- C9 (code bug): `game_loop` stores the timer as an `Instant` and,
when a step fires, executes
`timer = timer.checked_sub(UPDATE_INTERVAL).unwrap_or(Instant::now())`,
moving the anchor one interval into the *past*.  At the concrete input
below (anchor 1000 ms, step firing at 1501 ms) the next measurement at
the very same instant reads 1001 ms > 500 ms, so a second step fires
with zero additional elapsed time — the surplus grows by a full
interval per step instead of carrying over, and steps double — whereas
advancing the anchor by one interval (as the claim and the source's own
comment intend) would leave exactly the 1 ms surplus. -/
theorem c9_timer_subtraction_bug :
    elapsedSince 1501 1000 = 501 ∧
    UPDATE_INTERVAL < 501 ∧
    timerAfterStep 1000 1501 = 500 ∧
    elapsedSince 1501 (timerAfterStep 1000 1501) = 1001 ∧
    UPDATE_INTERVAL < elapsedSince 1501 (timerAfterStep 1000 1501) ∧
    elapsedSince 1501 (1000 + UPDATE_INTERVAL) = 1 := by
  decide

/-- C10: the tail-cell exclusion in `predict_next_action` is
unconditional.  In the first game two snakes on a 6x6 field: player 1's
snake `[(2,2),(2,1)]` has `grow_counter = 1` (its tail will not vacate)
yet player 0, whose candidate head `(2,1)` is exactly that tail cell,
still predicts `Move`; after one `step` both snakes are alive and both
occupy `(2,1)`.  In the second game player 1's snake holds (its
candidate head is contested by player 2), its tail again stays at
`(2,1)`, player 0 still predicts `Move`, and after one `step` players 0
and 1 are both alive and both occupy `(2,1)`. -/
theorem c10_tail_exclusion_overlap :
    ((Snake.candidateHead ⟨Direction.MinusX, [⟨3,1⟩, ⟨4,1⟩], 0⟩) = ⟨2,1⟩ ∧
     (Snake.body ⟨Direction.PlusY, [⟨2,2⟩, ⟨2,1⟩], 1⟩).getLast? = some ⟨2,1⟩ ∧
     (Snake.growCounter ⟨Direction.PlusY, [⟨2,2⟩, ⟨2,1⟩], 1⟩) = 1 ∧
     Game.predictNextAction
       ⟨[⟨some ⟨Direction.MinusX, [⟨3,1⟩, ⟨4,1⟩], 0⟩, 0⟩,
         ⟨some ⟨Direction.PlusY, [⟨2,2⟩, ⟨2,1⟩], 1⟩, 0⟩], ⟨6,6⟩, []⟩ 0 = ActionStep.Move ∧
     (((Game.step
         ⟨[⟨some ⟨Direction.MinusX, [⟨3,1⟩, ⟨4,1⟩], 0⟩, 0⟩,
           ⟨some ⟨Direction.PlusY, [⟨2,2⟩, ⟨2,1⟩], 1⟩, 0⟩], ⟨6,6⟩, []⟩).players.getD 0
         default).alive = true ∧
      ((Game.step
         ⟨[⟨some ⟨Direction.MinusX, [⟨3,1⟩, ⟨4,1⟩], 0⟩, 0⟩,
           ⟨some ⟨Direction.PlusY, [⟨2,2⟩, ⟨2,1⟩], 1⟩, 0⟩], ⟨6,6⟩, []⟩).players.getD 1
         default).alive = true ∧
      (⟨2,1⟩ : Vector2i) ∈
        (((Game.step
           ⟨[⟨some ⟨Direction.MinusX, [⟨3,1⟩, ⟨4,1⟩], 0⟩, 0⟩,
             ⟨some ⟨Direction.PlusY, [⟨2,2⟩, ⟨2,1⟩], 1⟩, 0⟩], ⟨6,6⟩, []⟩).players.getD 0
           default).snake.map Snake.body).getD [] ∧
      (⟨2,1⟩ : Vector2i) ∈
        (((Game.step
           ⟨[⟨some ⟨Direction.MinusX, [⟨3,1⟩, ⟨4,1⟩], 0⟩, 0⟩,
             ⟨some ⟨Direction.PlusY, [⟨2,2⟩, ⟨2,1⟩], 1⟩, 0⟩], ⟨6,6⟩, []⟩).players.getD 1
           default).snake.map Snake.body).getD [])) ∧
    (Game.predictNextAction
       ⟨[⟨some ⟨Direction.MinusX, [⟨3,1⟩, ⟨4,1⟩], 0⟩, 0⟩,
         ⟨some ⟨Direction.PlusY, [⟨2,2⟩, ⟨2,1⟩], 0⟩, 0⟩,
         ⟨some ⟨Direction.MinusX, [⟨3,3⟩, ⟨4,3⟩], 0⟩, 0⟩], ⟨6,6⟩, []⟩ 1 = ActionStep.Hold ∧
     Game.predictNextAction
       ⟨[⟨some ⟨Direction.MinusX, [⟨3,1⟩, ⟨4,1⟩], 0⟩, 0⟩,
         ⟨some ⟨Direction.PlusY, [⟨2,2⟩, ⟨2,1⟩], 0⟩, 0⟩,
         ⟨some ⟨Direction.MinusX, [⟨3,3⟩, ⟨4,3⟩], 0⟩, 0⟩], ⟨6,6⟩, []⟩ 0 = ActionStep.Move ∧
     ((Game.step
         ⟨[⟨some ⟨Direction.MinusX, [⟨3,1⟩, ⟨4,1⟩], 0⟩, 0⟩,
           ⟨some ⟨Direction.PlusY, [⟨2,2⟩, ⟨2,1⟩], 0⟩, 0⟩,
           ⟨some ⟨Direction.MinusX, [⟨3,3⟩, ⟨4,3⟩], 0⟩, 0⟩], ⟨6,6⟩, []⟩).players.getD 0
        default).alive = true ∧
     ((Game.step
         ⟨[⟨some ⟨Direction.MinusX, [⟨3,1⟩, ⟨4,1⟩], 0⟩, 0⟩,
           ⟨some ⟨Direction.PlusY, [⟨2,2⟩, ⟨2,1⟩], 0⟩, 0⟩,
           ⟨some ⟨Direction.MinusX, [⟨3,3⟩, ⟨4,3⟩], 0⟩, 0⟩], ⟨6,6⟩, []⟩).players.getD 1
        default).alive = true ∧
     (⟨2,1⟩ : Vector2i) ∈
       (((Game.step
          ⟨[⟨some ⟨Direction.MinusX, [⟨3,1⟩, ⟨4,1⟩], 0⟩, 0⟩,
            ⟨some ⟨Direction.PlusY, [⟨2,2⟩, ⟨2,1⟩], 0⟩, 0⟩,
            ⟨some ⟨Direction.MinusX, [⟨3,3⟩, ⟨4,3⟩], 0⟩, 0⟩], ⟨6,6⟩, []⟩).players.getD 0
          default).snake.map Snake.body).getD [] ∧
     (⟨2,1⟩ : Vector2i) ∈
       (((Game.step
          ⟨[⟨some ⟨Direction.MinusX, [⟨3,1⟩, ⟨4,1⟩], 0⟩, 0⟩,
            ⟨some ⟨Direction.PlusY, [⟨2,2⟩, ⟨2,1⟩], 0⟩, 0⟩,
            ⟨some ⟨Direction.MinusX, [⟨3,3⟩, ⟨4,3⟩], 0⟩, 0⟩], ⟨6,6⟩, []⟩).players.getD 1
          default).snake.map Snake.body).getD []) := by
  decide

theorem allDead_summaries (g : Game) (h : g.allDead = true) :
    ∀ ps ∈ g.playerSummaries, ps.alive = false := by
  intro ps hps
  obtain ⟨p, hp, hpe⟩ := List.mem_map.mp hps
  have hdead : ∀ q ∈ g.players, q.alive = false := by
    have h2 : g.players.any (fun q => q.alive) = false := by
      unfold Game.allDead at h
      simpa using h
    intro q hq
    simpa using List.any_eq_false.mp h2 q hq
  rw [← hpe]
  exact hdead p hp

/-- C6: over any sequence of loop iterations, the events the loop
publishes obey the claim — the number of `Update` events equals the
number of completed steps (exactly one `Update` per step), at most one
`GameOver` is emitted, no event follows a `GameOver`, a `GameOver` is
only emitted when every player in its summary is dead, and whenever all
players are dead at the top of a loop iteration a `GameOver` (with the
final per-player summaries) IS emitted, as the sole remaining event. -/
theorem c6_loop_events :
    ∀ (its : List LoopIter) (g : Game),
      ((g.gameLoopEvents its).countP GlobalEvent.isUpdate = g.stepsPerformed its) ∧
      ((g.gameLoopEvents its).countP GlobalEvent.isGameOver ≤ 1) ∧
      (∀ (l1 l2 : List GlobalEvent) (e : GlobalEvent),
        g.gameLoopEvents its = l1 ++ e :: l2 → e.isGameOver = true → l2 = []) ∧
      (∀ summ, GlobalEvent.GameOver summ ∈ g.gameLoopEvents its →
        ∀ ps ∈ summ, ps.alive = false) ∧
      (∀ (it : LoopIter) (rest : List LoopIter), g.allDead = true →
        g.gameLoopEvents (it :: rest) = [GlobalEvent.GameOver g.playerSummaries]) := by
  have hmain : ∀ (its : List LoopIter) (g : Game),
      ((g.gameLoopEvents its).countP GlobalEvent.isUpdate = g.stepsPerformed its) ∧
      ((g.gameLoopEvents its).countP GlobalEvent.isGameOver ≤ 1) ∧
      (∀ (l1 l2 : List GlobalEvent) (e : GlobalEvent),
        g.gameLoopEvents its = l1 ++ e :: l2 → e.isGameOver = true → l2 = []) ∧
      (∀ summ, GlobalEvent.GameOver summ ∈ g.gameLoopEvents its →
        ∀ ps ∈ summ, ps.alive = false) := by
    intro its
    induction its with
    | nil =>
      intro g
      refine ⟨rfl, Nat.zero_le 1, fun l1 l2 e h _ => absurd h (by simp [Game.gameLoopEvents]),
        fun summ h => absurd h (by simp [Game.gameLoopEvents])⟩
    | cons it rest ih =>
      intro g
      by_cases had : g.allDead = true
      · have hev : g.gameLoopEvents (it :: rest) = [GlobalEvent.GameOver g.playerSummaries] := by
          simp only [Game.gameLoopEvents]
          rw [if_pos had]
        have hst : g.stepsPerformed (it :: rest) = 0 := by
          simp only [Game.stepsPerformed]
          rw [if_pos had]
        rw [hev, hst]
        refine ⟨by simp [GlobalEvent.isUpdate], by simp [GlobalEvent.isGameOver], ?_, ?_⟩
        · intro l1 l2 e h _
          cases l1 with
          | nil =>
            simp only [List.nil_append, List.cons.injEq] at h
            exact h.2.symm
          | cons a t =>
            simp only [List.cons_append, List.cons.injEq] at h
            exact absurd h.2 (by simp)
        · intro summ hmem
          rw [List.mem_singleton] at hmem
          cases hmem
          exact allDead_summaries g had
      · by_cases hsd : it.shutdown = true
        · have hev : g.gameLoopEvents (it :: rest) = [] := by
            simp only [Game.gameLoopEvents]
            rw [if_neg (by simp [had]), if_pos hsd]
          have hst : g.stepsPerformed (it :: rest) = 0 := by
            simp only [Game.stepsPerformed]
            rw [if_neg (by simp [had]), if_pos hsd]
          rw [hev, hst]
          exact ⟨rfl, by simp, fun l1 l2 e h _ => absurd h (by simp), fun summ h => absurd h (by simp)⟩
        · by_cases htk : it.tick = true
          · have hev : g.gameLoopEvents (it :: rest) =
                GlobalEvent.Update ((g.readAllInputs it.inputs).step).generateGrid
                    ((g.readAllInputs it.inputs).step).playerSummaries ::
                  ((g.readAllInputs it.inputs).step).gameLoopEvents rest := by
              simp only [Game.gameLoopEvents]
              rw [if_neg (by simp [had]), if_neg (by simp [hsd]), if_pos htk]
            have hst : g.stepsPerformed (it :: rest) =
                ((g.readAllInputs it.inputs).step).stepsPerformed rest + 1 := by
              simp only [Game.stepsPerformed]
              rw [if_neg (by simp [had]), if_neg (by simp [hsd]), if_pos htk]
            obtain ⟨ih1, ih2, ih3, ih4⟩ := ih ((g.readAllInputs it.inputs).step)
            rw [hev, hst]
            refine ⟨?_, ?_, ?_, ?_⟩
            · rw [List.countP_cons]
              simp [GlobalEvent.isUpdate, ih1]
            · rw [List.countP_cons]
              simpa [GlobalEvent.isGameOver] using ih2
            · intro l1 l2 e h hgo
              cases l1 with
              | nil =>
                simp only [List.nil_append, List.cons.injEq] at h
                rw [← h.1] at hgo
                exact absurd hgo (by simp [GlobalEvent.isGameOver])
              | cons a t =>
                simp only [List.cons_append, List.cons.injEq] at h
                exact ih3 t l2 e h.2 hgo
            · intro summ hmem
              rcases List.mem_cons.mp hmem with h1 | h2
              · exact absurd h1 (by simp)
              · exact ih4 summ h2
          · have hev : g.gameLoopEvents (it :: rest) =
                (g.readAllInputs it.inputs).gameLoopEvents rest := by
              simp only [Game.gameLoopEvents]
              rw [if_neg (by simp [had]), if_neg (by simp [hsd]), if_neg (by simp [htk])]
            have hst : g.stepsPerformed (it :: rest) =
                (g.readAllInputs it.inputs).stepsPerformed rest := by
              simp only [Game.stepsPerformed]
              rw [if_neg (by simp [had]), if_neg (by simp [hsd]), if_neg (by simp [htk])]
            rw [hev, hst]
            exact ih (g.readAllInputs it.inputs)
  intro its g
  refine ⟨(hmain its g).1, (hmain its g).2.1, (hmain its g).2.2.1, (hmain its g).2.2.2, ?_⟩
  intro it rest had
  simp only [Game.gameLoopEvents]
  rw [if_pos had]

/-- Witness for C6: a 4x4 game whose single snake walks off the field on
the first tick emits exactly one `Update` (one completed step), nothing
after position 1, and its `GameOver` summary shows the player dead; and
a game whose only player is already dead emits exactly the single
`GameOver` event on its next loop iteration. -/
theorem c6_loop_events_witness :
    (Game.gameLoopEvents ⟨[⟨some ⟨Direction.MinusX, [⟨0,2⟩, ⟨1,2⟩], 0⟩, 0⟩], ⟨4,4⟩, []⟩
        [⟨false, [], true⟩, ⟨false, [], true⟩]).countP GlobalEvent.isUpdate
      = Game.stepsPerformed ⟨[⟨some ⟨Direction.MinusX, [⟨0,2⟩, ⟨1,2⟩], 0⟩, 0⟩], ⟨4,4⟩, []⟩
          [⟨false, [], true⟩, ⟨false, [], true⟩] ∧
    (Game.gameLoopEvents ⟨[⟨some ⟨Direction.MinusX, [⟨0,2⟩, ⟨1,2⟩], 0⟩, 0⟩], ⟨4,4⟩, []⟩
        [⟨false, [], true⟩, ⟨false, [], true⟩]).drop 2 = ([] : List GlobalEvent) ∧
    (∀ ps ∈ [({ score := 0, alive := false } : PlayerSummary)], ps.alive = false) ∧
    Game.gameLoopEvents ⟨[⟨none, 0⟩], ⟨4,4⟩, []⟩ [⟨false, [], true⟩]
      = [GlobalEvent.GameOver [{ score := 0, alive := false }]] := by
  refine ⟨(c6_loop_events [⟨false, [], true⟩, ⟨false, [], true⟩]
      ⟨[⟨some ⟨Direction.MinusX, [⟨0,2⟩, ⟨1,2⟩], 0⟩, 0⟩], ⟨4,4⟩, []⟩).1, ?_, ?_, ?_⟩
  · exact (c6_loop_events [⟨false, [], true⟩, ⟨false, [], true⟩]
        ⟨[⟨some ⟨Direction.MinusX, [⟨0,2⟩, ⟨1,2⟩], 0⟩, 0⟩], ⟨4,4⟩, []⟩).2.2.1
      ((Game.gameLoopEvents ⟨[⟨some ⟨Direction.MinusX, [⟨0,2⟩, ⟨1,2⟩], 0⟩, 0⟩], ⟨4,4⟩, []⟩
          [⟨false, [], true⟩, ⟨false, [], true⟩]).take 1)
      ((Game.gameLoopEvents ⟨[⟨some ⟨Direction.MinusX, [⟨0,2⟩, ⟨1,2⟩], 0⟩, 0⟩], ⟨4,4⟩, []⟩
          [⟨false, [], true⟩, ⟨false, [], true⟩]).drop 2)
      ((Game.gameLoopEvents ⟨[⟨some ⟨Direction.MinusX, [⟨0,2⟩, ⟨1,2⟩], 0⟩, 0⟩], ⟨4,4⟩, []⟩
          [⟨false, [], true⟩, ⟨false, [], true⟩]).getD 1 default)
      (by decide) (by decide)
  · exact (c6_loop_events [⟨false, [], true⟩, ⟨false, [], true⟩]
        ⟨[⟨some ⟨Direction.MinusX, [⟨0,2⟩, ⟨1,2⟩], 0⟩, 0⟩], ⟨4,4⟩, []⟩).2.2.2.1
      [{ score := 0, alive := false }] (by decide)
  · exact (c6_loop_events [] ⟨[⟨none, 0⟩], ⟨4,4⟩, []⟩).2.2.2.2
      ⟨false, [], true⟩ [] (by decide)

end SnakeZ
